import Mathlib

/-!
Shallow embedding of the BWSN analysis-module gateway firmware
(`src/main/white_list.h`, `src/main/analysis_module.h`, `src/main/main.c`).

C global state becomes explicit state records; C functions returning
`esp_err_t` become functions returning an error code paired with the new
state; machine floats used by the temperature decode/classify pipeline are
modelled as rationals (the pipeline only adds dyadic fractions with at most
eight fractional bits and compares against constants, so every comparison
the code performs has the same outcome over `ℚ`).
-/

namespace BWSN

/-- Result code of the ESP-IDF style APIs: `ESP_OK` or `ESP_FAIL`. -/
inductive EspErr where
  | ok
  | fail
deriving DecidableEq, Repr

/-- A 16-bit BLE UUID (`ble_uuid16_t`): the tag `u.type` and the 16-bit value. -/
structure BleUuid16 where
  utype : ℕ
  value : ℕ
deriving DecidableEq, Repr

/-- A BLE address (`ble_addr_t`): address-type tag plus six address bytes. -/
structure BleAddr where
  atype : ℕ
  val : Fin 6 → ℕ
deriving DecidableEq

/-- `uuids16_are_equal` from `white_list.h`: equal type tag and equal value. -/
def uuids16_are_equal (u1 u2 : BleUuid16) : Bool :=
  u1.utype == u2.utype && u1.value == u2.value

/-- `addrs_are_equal` from `white_list.h`: equal address type and
`memcmp` of the six address bytes returns zero. -/
def addrs_are_equal (a1 a2 : BleAddr) : Bool :=
  a1.atype == a2.atype && decide (∀ k : Fin 6, a1.val k = a2.val k)

/-- One white-list slot (`device_data_t`). -/
structure DeviceData where
  device_uuid : BleUuid16
  device_addr : BleAddr
  addr_is_empty : Bool
deriving DecidableEq

/-- `white_list_size`: the white list has three category slots. -/
def white_list_size : ℕ := 3

/-- NimBLE tag for 16-bit UUIDs (`BLE_UUID_TYPE_16`). -/
def BLE_UUID_TYPE_16 : ℕ := 16

/-- Category 0x1809: temperature. -/
def uuid_temperature : BleUuid16 := ⟨BLE_UUID_TYPE_16, 0x1809⟩

/-- Category 0x1822: pulse oximeter. -/
def uuid_pulseox : BleUuid16 := ⟨BLE_UUID_TYPE_16, 0x1822⟩

/-- Category 0x183E: physical activity monitor. -/
def uuid_activity : BleUuid16 := ⟨BLE_UUID_TYPE_16, 0x183E⟩

/-- The mutable state owned by `white_list.h`: the slot table (preserved in
RTC memory), the cached entry count and the initialisation flag. -/
structure WLState where
  white_list : List DeviceData
  white_list_len : ℕ
  wl_is_initialised : Bool
deriving DecidableEq

/-- The common shape of the three `for` loops in `white_list.h` that walk the
slot array, update the first slot satisfying `P` and leave the rest alone;
`none` when no slot satisfies `P`. -/
def scan_update (P : DeviceData → Bool) (upd : DeviceData → DeviceData) :
    List DeviceData → Option (List DeviceData)
  | [] => none
  | d :: rest =>
    if P d then some (upd d :: rest)
    else (scan_update P upd rest).map (fun r => d :: r)

/-- `get_white_list_len`: counts the slots whose address field is non-empty. -/
def get_white_list_len (l : List DeviceData) : ℕ :=
  l.countP (fun d => !d.addr_is_empty)

/-- `init_white_list`: fails if already initialised, otherwise recounts the
non-empty slots (resuming after sleep) and sets the initialised flag. -/
def init_white_list (s : WLState) : EspErr × WLState :=
  if s.wl_is_initialised then (.fail, s)
  else (.ok, { s with white_list_len := get_white_list_len s.white_list,
                      wl_is_initialised := true })

/-- `deinit_white_list`: fails if not initialised, otherwise zeroes the cached
length and clears the initialised flag, leaving the slot table untouched. -/
def deinit_white_list (s : WLState) : EspErr × WLState :=
  if !s.wl_is_initialised then (.fail, s)
  else (.ok, { s with white_list_len := 0, wl_is_initialised := false })

/-- `push_to_white_list`: fails when uninitialised or when the cached length
equals the capacity; otherwise stores the address into the first empty slot
whose UUID matches and bumps the length, failing when no such slot exists. -/
def push_to_white_list (s : WLState) (uuid : BleUuid16) (addr : BleAddr) :
    EspErr × WLState :=
  if !s.wl_is_initialised then (.fail, s)
  else if s.white_list_len == white_list_size then (.fail, s)
  else
    match scan_update (fun d => d.addr_is_empty && uuids16_are_equal d.device_uuid uuid)
        (fun d => { d with device_addr := addr, addr_is_empty := false })
        s.white_list with
    | none => (.fail, s)
    | some l => (.ok, { s with white_list := l,
                               white_list_len := s.white_list_len + 1 })

/-- `remove_from_white_list_by_addr`: fails when uninitialised or when the
cached length is zero; otherwise clears the occupancy flag of the first
non-empty slot holding the address, failing when none does. -/
def remove_from_white_list_by_addr (s : WLState) (addr : BleAddr) :
    EspErr × WLState :=
  if !s.wl_is_initialised then (.fail, s)
  else if s.white_list_len == 0 then (.fail, s)
  else
    match scan_update (fun d => !d.addr_is_empty && addrs_are_equal d.device_addr addr)
        (fun d => { d with addr_is_empty := true }) s.white_list with
    | none => (.fail, s)
    | some l => (.ok, { s with white_list := l,
                               white_list_len := s.white_list_len - 1 })

/-- `remove_from_white_list_by_uuid16`: like removal by address, keyed on the
slot UUID instead. -/
def remove_from_white_list_by_uuid16 (s : WLState) (uuid : BleUuid16) :
    EspErr × WLState :=
  if !s.wl_is_initialised then (.fail, s)
  else if s.white_list_len == 0 then (.fail, s)
  else
    match scan_update (fun d => !d.addr_is_empty && uuids16_are_equal d.device_uuid uuid)
        (fun d => { d with addr_is_empty := true }) s.white_list with
    | none => (.fail, s)
    | some l => (.ok, { s with white_list := l,
                               white_list_len := s.white_list_len - 1 })

/-- `uuid_is_interesting`: true when initialised, not full, and some empty
slot carries the given UUID. -/
def uuid_is_interesting (s : WLState) (uuid : BleUuid16) : Bool :=
  if !s.wl_is_initialised then false
  else if s.white_list_len == white_list_size then false
  else s.white_list.any (fun d => d.addr_is_empty && uuids16_are_equal d.device_uuid uuid)

/-- `white_list_contains_addr`: true when initialised, non-empty, and some
occupied slot holds the given address. -/
def white_list_contains_addr (s : WLState) (addr : BleAddr) : Bool :=
  if !s.wl_is_initialised then false
  else if s.white_list_len == 0 then false
  else s.white_list.any (fun d => !d.addr_is_empty && addrs_are_equal d.device_addr addr)

/-- `white_list_is_empty`: the cached length is zero. -/
def white_list_is_empty (s : WLState) : Bool :=
  s.white_list_len == 0

/-- `get_addr_white_list`: fails when uninitialised or empty; otherwise the
addresses of the occupied slots in slot order. -/
def get_addr_white_list (s : WLState) : Option (List BleAddr) :=
  if !s.wl_is_initialised then none
  else if s.white_list_len == 0 then none
  else some ((s.white_list.filter (fun d => !d.addr_is_empty)).map
    (fun d => d.device_addr))

/-- `TEMP_MAX_SCORE`: the maximum temperature score. -/
def TEMP_MAX_SCORE : ℤ := 3

/-- `liferate_t`: the health-risk classification enumeration. -/
inductive liferate where
  | UNDEFINED
  | NORMAL
  | CRITICAL
  | VERY_CRITICAL
deriving DecidableEq, Repr

/-- `get_temp_score` from `analysis_module.h`: the ordered first-match rule
over the measured temperature. -/
def get_temp_score (temp : ℚ) : ℤ :=
  if 36 < temp ∧ temp ≤ 38 then 0
  else if 35 < temp ∧ temp ≤ 39 then 1
  else if 39 < temp then 2
  else if temp ≤ 35 then 3
  else -1

/-- The bucket cascade in the body of `start_analysis`, as a function of the
computed ratio `res_score`. -/
def classify_ratio (res_score : ℚ) : liferate :=
  if 0 ≤ res_score ∧ res_score < 3/10 then .NORMAL
  else if 3/10 ≤ res_score ∧ res_score < 7/10 then .CRITICAL
  else if 7/10 ≤ res_score ∧ res_score ≤ 1 then .VERY_CRITICAL
  else .UNDEFINED

/-- `start_analysis`: scores the stored temperature, divides by the maximum
score and buckets the ratio. -/
def start_analysis (temp_data : ℚ) : liferate :=
  classify_ratio ((get_temp_score temp_data : ℚ) / (TEMP_MAX_SCORE : ℚ))

/-- `convert_temp_data_to_float`: integer part from the low seven bits of the
MSB, fractional part accumulated bit-by-bit from the LSB dividing by
`2 << i`, sign from the top bit of the MSB. -/
def convert_temp_data_to_float (temp_msb temp_lsb : ℕ) : ℚ :=
  (((temp_msb &&& 0x7f : ℕ) : ℚ) +
      ∑ i ∈ Finset.range 8,
        (((temp_lsb >>> (7 - i)) &&& 1 : ℕ) : ℚ) / ((2 <<< i : ℕ) : ℚ)) *
    (if (temp_msb >>> 7) &&& 1 == 1 then -1 else 1)

/-- `g_device_mode_t` from `main.c`: the gateway's mode of operation. -/
inductive g_device_mode_t where
  | UNSPECIFIED_MODE
  | REGISTRATION_MODE
  | DELETION_MODE
deriving DecidableEq, Repr

/-- `RSSI_ACCEPTABLE_LVL`: the signal-strength floor for pairing. -/
def RSSI_ACCEPTABLE_LVL : ℤ := -50

/-- NimBLE's `BLE_HS_FOREVER` duration (no timeout). -/
def BLE_HS_FOREVER : ℤ := 0x7fffffff

/-- Modelled from the spec: `app_packet.h` is not under `src/`, so the header
size constant is taken from the wire format `[declaredLength:1][header:2][body]`. -/
def HEADER_SIZE : ℕ := 2

/-- Modelled from the spec: `app_packet.h` is not under `src/`; the three
header discriminants (Telemetry, EnrollOffer, RemoveOffer) exist but their
numeric values are unknown, so placeholders (distinct values) stand in. -/
def DATA_HEADER : ℕ := 0

/-- Modelled from the spec: the EnrollOffer discriminant (placeholder value,
see `DATA_HEADER`). -/
def REG_HEADER : ℕ := 1

/-- Modelled from the spec: the RemoveOffer discriminant (placeholder value,
see `DATA_HEADER`). -/
def DEL_HEADER : ℕ := 2

/-- Modelled from the spec: `open_packet` (`app_packet.h`) is not under
`src/`. Per the spec it fails with `MalformedPacket` when the declared
length is below the two-byte header size or exceeds the supplied buffer,
and otherwise yields the 16-bit header read from the first two bytes and
the remaining `declaredLength - 2` bytes as the body, with no filtering of
unknown header values. -/
def open_packet (raw : List ℕ) (declared_len : ℕ) : Option (ℕ × List ℕ) :=
  if declared_len < HEADER_SIZE then none
  else if raw.length < declared_len then none
  else
    match raw with
    | b0 :: b1 :: rest => some (256 * b0 + b1, rest.take (declared_len - HEADER_SIZE))
    | _ => none

/-- The whole-gateway state: current mode (ordinary memory), the white list
and the stored telemetry sample (both preserved across sleep). -/
structure GatewayState where
  g_device_mode : g_device_mode_t
  wl : WLState
  temp_data : ℚ
deriving DecidableEq

/-- Observable calls the gateway makes into its drivers, recorded as a trace
in the order the C code issues them. -/
inductive GwAction where
  | ledOn
  | ledOff
  | ledBlink (onMs offMs : ℕ)
  | setAllowList (addrs : List BleAddr)
  | startDiscovery (filter_policy : ℕ) (duration_ms : ℤ)
  | cancelDiscovery
  | wlInsert (uuid : BleUuid16) (addr : BleAddr)
  | connectTo (addr : BleAddr)
  | terminateConn
  | armTimerWake
  | deepSleep
deriving DecidableEq

/-- The advertisement fields `connect_if_interesting` consumes
(`ble_hs_adv_fields`): advertised 16-bit UUIDs and the manufacturer data
with its declared length. -/
structure ble_hs_adv_fields where
  uuids16 : List BleUuid16
  mfg_data : List ℕ
  mfg_data_len : ℕ
deriving DecidableEq

/-- The discovery descriptor (`ble_gap_disc_desc`): advertiser address and
signal strength. -/
structure ble_gap_disc_desc where
  addr : BleAddr
  rssi : ℤ
deriving DecidableEq

/-- `connect_if_interesting` from `main.c`: in registration mode, gate on
RSSI, first interesting advertised UUID, address-not-registered (or empty
list), a well-formed packet and the `REG_HEADER` discriminant; on accept,
cancel discovery, push the peer into the white list, then connect. -/
def connect_if_interesting (fields : ble_hs_adv_fields) (dd : ble_gap_disc_desc)
    (s : GatewayState) : GatewayState × List GwAction :=
  if dd.rssi < RSSI_ACCEPTABLE_LVL then (s, [])
  else
    match fields.uuids16.find? (fun u => uuid_is_interesting s.wl u) with
    | none => (s, [])
    | some u =>
      if !white_list_contains_addr s.wl dd.addr || white_list_is_empty s.wl then
        match open_packet fields.mfg_data fields.mfg_data_len with
        | none => (s, [])
        | some (header, _) =>
          if header == REG_HEADER then
            ({ s with wl := (push_to_white_list s.wl u dd.addr).2 },
              [.cancelDiscovery, .wlInsert u dd.addr, .connectTo dd.addr])
          else (s, [])
      else (s, [])

/-- `delete_if_reachable` from `main.c`: in deletion mode, gate on RSSI,
registered address, a well-formed packet and the `DEL_HEADER` discriminant;
on accept, cancel discovery and connect. -/
def delete_if_reachable (fields : ble_hs_adv_fields) (dd : ble_gap_disc_desc)
    (s : GatewayState) : GatewayState × List GwAction :=
  if dd.rssi < RSSI_ACCEPTABLE_LVL then (s, [])
  else if !white_list_contains_addr s.wl dd.addr then (s, [])
  else
    match open_packet fields.mfg_data fields.mfg_data_len with
    | none => (s, [])
    | some (header, _) =>
      if header == DEL_HEADER then
        (s, [.cancelDiscovery, .connectTo dd.addr])
      else (s, [])

/-- The `BLE_GAP_EVENT_CONNECT` branch of `ble_gap_event` in `main.c`, as a
function of the connection status and the peer identity address: on success,
blink for completed registration, or remove the peer and blink for completed
deletion, then terminate; on failure, remove the peer from the white list. -/
def ble_gap_event_connect (status : ℤ) (peer : BleAddr) (s : GatewayState) :
    GatewayState × List GwAction :=
  if status == 0 then
    if s.g_device_mode == .REGISTRATION_MODE then
      (s, [.ledBlink 100 100, .terminateConn])
    else if s.g_device_mode == .DELETION_MODE && white_list_contains_addr s.wl peer then
      let r := remove_from_white_list_by_addr s.wl peer
      ({ s with wl := r.2 },
        (if r.1 == .ok then [.ledBlink 700 700] else []) ++ [.terminateConn])
    else (s, [.terminateConn])
  else
    ({ s with wl := (remove_from_white_list_by_addr s.wl peer).2 }, [])

/-- `on_medium_button_press` from `main.c`: enter registration mode with
unrestricted open-ended discovery when in neither special mode; leave
registration mode (arming the wake timer when the list is non-empty) and
halt; otherwise do nothing. -/
def on_medium_button_press (s : GatewayState) : GatewayState × List GwAction :=
  if s.g_device_mode ≠ .REGISTRATION_MODE ∧ s.g_device_mode ≠ .DELETION_MODE then
    ({ s with g_device_mode := .REGISTRATION_MODE },
      [.ledOn, .startDiscovery 0 BLE_HS_FOREVER])
  else if s.g_device_mode = .REGISTRATION_MODE then
    ({ s with g_device_mode := .UNSPECIFIED_MODE },
      (if !white_list_is_empty s.wl then [.armTimerWake] else []) ++
        [.ledOff, .deepSleep])
  else (s, [])

/-- `on_long_button_press` from `main.c`: enter deletion mode (only when the
white list is non-empty) with discovery restricted to the exported address
list; leave deletion mode and halt; otherwise do nothing. -/
def on_long_button_press (s : GatewayState) : GatewayState × List GwAction :=
  if s.g_device_mode ≠ .DELETION_MODE ∧ s.g_device_mode ≠ .REGISTRATION_MODE ∧
      white_list_is_empty s.wl = false then
    ({ s with g_device_mode := .DELETION_MODE },
      [.ledOn, .setAllowList ((get_addr_white_list s.wl).getD []),
        .startDiscovery 1 BLE_HS_FOREVER])
  else if s.g_device_mode = .DELETION_MODE then
    ({ s with g_device_mode := .UNSPECIFIED_MODE },
      (if !white_list_is_empty s.wl then [.armTimerWake] else []) ++
        [.ledOff, .deepSleep])
  else (s, [])

/-!
Spec-side definitions: statements of the specification written from the
spec's words, to be compared with the embedded source functions, plus
concrete fixtures used by witnesses.
-/

/-- The effective ordered partition the spec states for the temperature
score: `t ≤ 35 → 3`; `35 < t ≤ 36 → 1`; `36 < t ≤ 38 → 0`;
`38 < t ≤ 39 → 1`; `t > 39 → 2`. -/
def temp_score_partition (t : ℚ) : ℤ :=
  if t ≤ 35 then 3
  else if t ≤ 36 then 1
  else if t ≤ 38 then 0
  else if t ≤ 39 then 1
  else 2

/-- The decode formula exactly as the claim words it: sign times integer
part plus, for each set fractional bit `i` counted from the most
significant, a contribution of `1 / 2 ^ (i + 2)`. -/
def claimed_decode (temp_msb temp_lsb : ℕ) : ℚ :=
  (if Nat.testBit temp_msb 7 then -1 else 1) *
    (((temp_msb &&& 0x7f : ℕ) : ℚ) +
      ∑ i ∈ Finset.range 8,
        if Nat.testBit temp_lsb (7 - i) then (1 : ℚ) / 2 ^ (i + 2) else 0)

/-- The amended decode formula: identical except that fractional bit `i`
contributes `1 / 2 ^ (i + 1)`, matching the code's division by `2 << i`. -/
def amended_decode (temp_msb temp_lsb : ℕ) : ℚ :=
  (if Nat.testBit temp_msb 7 then -1 else 1) *
    (((temp_msb &&& 0x7f : ℕ) : ℚ) +
      ∑ i ∈ Finset.range 8,
        if Nat.testBit temp_lsb (7 - i) then (1 : ℚ) / 2 ^ (i + 1) else 0)

/-- No two occupied slots hold the same address (in the sense of the code's
own comparator `addrs_are_equal`). -/
def distinct_addrs (l : List DeviceData) : Prop :=
  l.Pairwise (fun d1 d2 => d1.addr_is_empty = false → d2.addr_is_empty = false →
    addrs_are_equal d1.device_addr d2.device_addr = false)

/-- The registry invariant: the slot categories are exactly the three
build-time categories in order (hence immutable and pairwise distinct),
occupied slots hold pairwise distinct addresses, and while initialised the
cached length equals the number of occupied slots. -/
def WLInv (s : WLState) : Prop :=
  s.white_list.map (fun d => d.device_uuid) =
      [uuid_temperature, uuid_pulseox, uuid_activity] ∧
  distinct_addrs s.white_list ∧
  (s.wl_is_initialised = true → s.white_list_len = get_white_list_len s.white_list)

/-- The all-zero address used by the boot-time slot initialisers. -/
def zero_addr : BleAddr := ⟨0, fun _ => 0⟩

/-- A sample peer address used by witnesses. -/
def addrB : BleAddr := ⟨0, fun _ => 0xB⟩

/-- The boot-time slot table from `white_list.h`: the three categories, all
unoccupied. -/
def boot_slots : List DeviceData :=
  [⟨uuid_temperature, zero_addr, true⟩,
   ⟨uuid_pulseox, zero_addr, true⟩,
   ⟨uuid_activity, zero_addr, true⟩]

/-- A freshly initialised, empty white list. -/
def wl_empty : WLState := ⟨boot_slots, 0, true⟩

/-- A gateway state used by witnesses: registration mode over the empty
white list. -/
def gw_reg_empty : GatewayState := ⟨.REGISTRATION_MODE, wl_empty, 0⟩

/-- A gateway state used by witnesses: idle mode over the empty white list. -/
def gw_idle_empty : GatewayState := ⟨.UNSPECIFIED_MODE, wl_empty, 0⟩

/-- A gateway state used by witnesses: deletion mode over the empty white
list. -/
def gw_del_empty : GatewayState := ⟨.DELETION_MODE, wl_empty, 0⟩

/-- The white list after enrolling `addrB` under the pulse-oximeter
category. -/
def wl_pulseB : WLState :=
  ⟨[⟨uuid_temperature, zero_addr, true⟩,
    ⟨uuid_pulseox, addrB, false⟩,
    ⟨uuid_activity, zero_addr, true⟩], 1, true⟩

/-!
Helper lemmas: characterisations of the first-match scan loop and of the
address comparator.
-/

/-- The scan loop finds nothing exactly when no slot satisfies the
predicate. -/
theorem scan_update_eq_none {P : DeviceData → Bool} {upd : DeviceData → DeviceData}
    {l : List DeviceData} :
    scan_update P upd l = none ↔ ∀ d ∈ l, P d = false := by
  induction l with
  | nil => simp [scan_update]
  | cons d rest ih =>
    by_cases h : P d
    · simp [scan_update, h]
    · simp only [scan_update, if_neg h, Option.map_eq_none', ih, List.mem_cons]
      constructor
      · rintro hall x (rfl | hx)
        · exact Bool.eq_false_iff.mpr h
        · exact hall x hx
      · intro hall x hx
        exact hall x (Or.inr hx)

/-- A successful scan updates exactly the first slot satisfying the
predicate, leaving every other slot unchanged. -/
theorem scan_update_eq_some {P : DeviceData → Bool} {upd : DeviceData → DeviceData}
    {l l2 : List DeviceData} (h : scan_update P upd l = some l2) :
    ∃ l0 d l1, l = l0 ++ d :: l1 ∧ l2 = l0 ++ upd d :: l1 ∧ P d = true ∧
      ∀ x ∈ l0, P x = false := by
  induction l generalizing l2 with
  | nil => simp [scan_update] at h
  | cons d rest ih =>
    by_cases hP : P d
    · rw [scan_update, if_pos hP] at h
      exact ⟨[], d, rest, rfl, (Option.some.inj h).symm, hP, by simp⟩
    · rw [scan_update, if_neg hP] at h
      rcases Option.map_eq_some'.mp h with ⟨r, hr, hmap⟩
      rcases ih hr with ⟨l0, e, l1, hl, hl2, hPe, hall⟩
      refine ⟨d :: l0, e, l1, by rw [hl]; rfl, by rw [← hmap, hl2]; rfl, hPe, ?_⟩
      intro x hx
      rcases List.mem_cons.mp hx with rfl | hx2
      · exact Bool.eq_false_iff.mpr hP
      · exact hall x hx2

/-- Conversely, when the slots left of `d` all fail the predicate and `d`
satisfies it, the scan updates `d` and keeps everything else. -/
theorem scan_update_append {P : DeviceData → Bool} {upd : DeviceData → DeviceData}
    (l0 : List DeviceData) (d : DeviceData) (l1 : List DeviceData)
    (h0 : ∀ x ∈ l0, P x = false) (hd : P d = true) :
    scan_update P upd (l0 ++ d :: l1) = some (l0 ++ upd d :: l1) := by
  induction l0 with
  | nil => simp [scan_update, hd]
  | cons e rest ih =>
    have he : P e = false := h0 e (by simp)
    have ih2 : scan_update P upd (rest.append (d :: l1)) = some (rest ++ upd d :: l1) :=
      ih (fun x hx => h0 x (by simp [hx]))
    simp only [List.cons_append, scan_update, he, Bool.false_eq_true, if_false, ih2,
      Option.map_some']

/-- The code's address comparator agrees with equality of the model's
addresses. -/
theorem addrs_are_equal_iff (a b : BleAddr) : addrs_are_equal a b = true ↔ a = b := by
  cases a; cases b
  simp [addrs_are_equal, funext_iff, BleAddr.mk.injEq]

/-- Reflexivity of the address comparator. -/
theorem addrs_are_equal_self (a : BleAddr) : addrs_are_equal a a = true :=
  (addrs_are_equal_iff a a).mpr rfl

/-- Symmetry of the address comparator. -/
theorem addrs_are_equal_comm (a b : BleAddr) : addrs_are_equal a b = addrs_are_equal b a := by
  rw [Bool.eq_iff_iff, addrs_are_equal_iff, addrs_are_equal_iff]
  exact eq_comm

/-!
Theorems for the temperature decode and classification claims.
-/

/-- Claim C1 counterexample: the claim asserts `score(36.0) = 0`, but the
code's first rule requires `temp > 36.0` strictly, so `36.0` falls through
to the second rule and scores `1`. -/
theorem get_temp_score_at_36 : get_temp_score 36 ≠ 0 := by decide

/-- Claim C1 (amended): the score function realises exactly the ordered
partition `t ≤ 35 → 3`; `35 < t ≤ 36 → 1`; `36 < t ≤ 38 → 0`;
`38 < t ≤ 39 → 1`; `t > 39 → 2`; the listed sample points evaluate
accordingly (with `score(36.0) = 1`, not `0`), and the `-1` sentinel branch
is unreachable. -/
theorem get_temp_score_effective_partition :
    (∀ t : ℚ, get_temp_score t = temp_score_partition t) ∧
    get_temp_score 35 = 3 ∧ get_temp_score 36 = 1 ∧ get_temp_score (365/10) = 0 ∧
    get_temp_score 38 = 0 ∧ get_temp_score (385/10) = 1 ∧ get_temp_score 39 = 1 ∧
    get_temp_score 40 = 2 ∧ (∀ t : ℚ, get_temp_score t ≠ -1) := by
  refine ⟨?_, by decide, by decide, by norm_num [get_temp_score], by decide,
    by norm_num [get_temp_score], by decide, by decide, ?_⟩
  · intro t
    rcases le_or_lt t 35 with h1 | h1
    · have a1 : ¬(36:ℚ) < t := by linarith
      have a2 : ¬(35:ℚ) < t := by linarith
      have a3 : ¬(39:ℚ) < t := by linarith
      simp [get_temp_score, temp_score_partition, h1, a1, a2, a3]
    · rcases le_or_lt t 36 with h2 | h2
      · have a1 : ¬(36:ℚ) < t := by linarith
        have a4 : ¬t ≤ (35:ℚ) := by linarith
        have a5 : t ≤ (39:ℚ) := by linarith
        simp [get_temp_score, temp_score_partition, h1, h2, a1, a4, a5]
      · rcases le_or_lt t 38 with h3 | h3
        · have a4 : ¬t ≤ (35:ℚ) := by linarith
          have a6 : ¬t ≤ (36:ℚ) := by linarith
          simp [get_temp_score, temp_score_partition, h2, h3, a4, a6]
        · rcases le_or_lt t 39 with h4 | h4
          · have a4 : ¬t ≤ (35:ℚ) := by linarith
            have a6 : ¬t ≤ (36:ℚ) := by linarith
            have a7 : ¬t ≤ (38:ℚ) := by linarith
            have a8 : ¬(39:ℚ) < t := by linarith
            have a9 : (35:ℚ) < t := by linarith
            simp [get_temp_score, temp_score_partition, h3, h4, a4, a6, a7, a8, a9]
          · have a4 : ¬t ≤ (35:ℚ) := by linarith
            have a6 : ¬t ≤ (36:ℚ) := by linarith
            have a7 : ¬t ≤ (38:ℚ) := by linarith
            have a10 : ¬t ≤ (39:ℚ) := by linarith
            simp [get_temp_score, temp_score_partition, h4, a4, a6, a7, a10]
  · intro t
    unfold get_temp_score
    split_ifs with h1 h2 h3 h4
    · decide
    · decide
    · decide
    · decide
    · exact absurd ⟨not_le.mp h4, not_lt.mp h3⟩ h2

/-- Witness for C1 at a concrete temperature. -/
theorem get_temp_score_effective_partition_witness :
    get_temp_score 37 = temp_score_partition 37 :=
  get_temp_score_effective_partition.1 37

/-- A bit extracted by shift-and-mask, divided by anything, is the indicator
of the corresponding `testBit`. -/
theorem and_one_div_eq (n k : ℕ) (m : ℚ) :
    (((n >>> k) &&& 1 : ℕ) : ℚ) / m = if Nat.testBit n k then 1 / m else 0 := by
  rw [Nat.and_one_is_mod, Nat.testBit_to_div_mod, ← Nat.shiftRight_eq_div_pow]
  rcases Nat.mod_two_eq_zero_or_one (n >>> k) with h | h <;> rw [h] <;> simp

/-- The sign test `(msb >> 7) & 1 == 1` is the top-bit test. -/
theorem shiftRight_and_one_beq (n : ℕ) : ((n >>> 7) &&& 1 == 1) = Nat.testBit n 7 := by
  rw [Nat.and_one_is_mod, Nat.testBit_to_div_mod, ← Nat.shiftRight_eq_div_pow]
  rcases Nat.mod_two_eq_zero_or_one (n >>> 7) with h | h <;> rw [h] <;> rfl

/-- Claim C2 counterexample: at `msb = 0`, `lsb = 0x80` the code returns
`1/2` (it divides by `2 << i`, i.e. `2^(i+1)`), while the claim's formula
with `1 / 2^(i+2)` gives `1/4`. -/
theorem convert_temp_data_claimed_counterexample :
    convert_temp_data_to_float 0 128 ≠ claimed_decode 0 128 := by
  norm_num [convert_temp_data_to_float, claimed_decode, Finset.sum_range_succ,
    Nat.shiftRight_eq_div_pow, Nat.shiftLeft_eq, Nat.testBit_to_div_mod]

/-- Claim C2 (amended): for every pair of bytes the decode returns
sign × (integer + fractional) with integer part the low seven bits of the
magnitude, sign negative exactly when its top bit is set, and fractional
bit `i` (counted from the most significant) contributing `1 / 2^(i+1)`. -/
theorem convert_temp_data_matches_amended (temp_msb temp_lsb : ℕ) :
    convert_temp_data_to_float temp_msb temp_lsb = amended_decode temp_msb temp_lsb := by
  unfold convert_temp_data_to_float amended_decode
  rw [mul_comm, shiftRight_and_one_beq]
  congr 1
  congr 1
  apply Finset.sum_congr rfl
  intro i hi
  rw [and_one_div_eq]
  congr 1
  have h2 : ((2 <<< i : ℕ) : ℚ) = 2 ^ (i + 1) := by
    rw [Nat.shiftLeft_eq]
    push_cast
    ring
  rw [h2]

/-- Claim C7: the classification buckets the ratio `score / 3` as
`[0, 0.3) → Normal`, `[0.3, 0.7) → Critical`, `[0.7, 1] → VeryCritical`,
anything outside `[0, 1] → Undefined`; in particular the five storable
scores map to Undefined, Normal, Critical, Critical, VeryCritical. -/
theorem classification_buckets_spec :
    (∀ r : ℚ, 0 ≤ r → r < 3/10 → classify_ratio r = .NORMAL) ∧
    (∀ r : ℚ, 3/10 ≤ r → r < 7/10 → classify_ratio r = .CRITICAL) ∧
    (∀ r : ℚ, 7/10 ≤ r → r ≤ 1 → classify_ratio r = .VERY_CRITICAL) ∧
    (∀ r : ℚ, r < 0 ∨ 1 < r → classify_ratio r = .UNDEFINED) ∧
    classify_ratio ((-1 : ℚ)/3) = .UNDEFINED ∧
    classify_ratio ((0 : ℚ)/3) = .NORMAL ∧
    classify_ratio ((1 : ℚ)/3) = .CRITICAL ∧
    classify_ratio ((2 : ℚ)/3) = .CRITICAL ∧
    classify_ratio ((3 : ℚ)/3) = .VERY_CRITICAL ∧
    (∀ t : ℚ, start_analysis t =
      classify_ratio ((get_temp_score t : ℚ) / 3)) := by
  refine ⟨?_, ?_, ?_, ?_, by norm_num [classify_ratio], by norm_num [classify_ratio],
    by norm_num [classify_ratio], by norm_num [classify_ratio],
    by norm_num [classify_ratio], ?_⟩
  · intro r h1 h2
    unfold classify_ratio
    rw [if_pos ⟨h1, h2⟩]
  · intro r h1 h2
    unfold classify_ratio
    rw [if_neg (by rintro ⟨-, hx⟩; linarith), if_pos ⟨h1, h2⟩]
  · intro r h1 h2
    unfold classify_ratio
    rw [if_neg (by rintro ⟨-, hx⟩; linarith), if_neg (by rintro ⟨-, hx⟩; linarith),
      if_pos ⟨h1, h2⟩]
  · intro r h
    unfold classify_ratio
    rcases h with h | h
    · rw [if_neg (by rintro ⟨hx, -⟩; linarith), if_neg (by rintro ⟨hx, -⟩; linarith),
        if_neg (by rintro ⟨hx, -⟩; linarith)]
    · rw [if_neg (by rintro ⟨-, hx⟩; linarith), if_neg (by rintro ⟨-, hx⟩; linarith),
        if_neg (by rintro ⟨-, hx⟩; linarith)]
  · intro t
    norm_num [start_analysis, TEMP_MAX_SCORE]

/-- Witness for C7 at the spec's boundary ratios. -/
theorem classification_buckets_spec_witness :
    classify_ratio ((29 : ℚ)/100) = .NORMAL ∧
    classify_ratio ((30 : ℚ)/100) = .CRITICAL ∧
    classify_ratio ((69 : ℚ)/100) = .CRITICAL ∧
    classify_ratio ((70 : ℚ)/100) = .VERY_CRITICAL :=
  ⟨classification_buckets_spec.1 _ (by norm_num) (by norm_num),
   classification_buckets_spec.2.1 _ (by norm_num) (by norm_num),
   classification_buckets_spec.2.1 _ (by norm_num) (by norm_num),
   classification_buckets_spec.2.2.1 _ (by norm_num) (by norm_num)⟩

/-!
Theorems for the registry, packet codec and pairing state machine claims.
-/

/-- A zero cached length forces, under the invariant, every slot to be
unoccupied. -/
theorem wl_len_zero_all_empty {s : WLState} (hInv : WLInv s)
    (hinit : s.wl_is_initialised = true) (hz : s.white_list_len = 0) :
    ∀ x ∈ s.white_list, x.addr_is_empty = true := by
  have hcnt := hInv.2.2 hinit
  rw [hz] at hcnt
  have h0 : s.white_list.countP (fun d => !d.addr_is_empty) = 0 := by
    rw [get_white_list_len] at hcnt
    omega
  intro x hx
  have := List.countP_eq_zero.mp h0 x hx
  simp only [Bool.not_eq_true'] at this
  simpa using this

/-- The insert gate used by the pairing state machine (address not
registered, or registry empty) means no occupied slot holds the address. -/
theorem wl_no_occupied_addr {s : WLState} {a : BleAddr} (hInv : WLInv s)
    (hinit : s.wl_is_initialised = true)
    (hG : white_list_contains_addr s a = false ∨ white_list_is_empty s = true) :
    ∀ x ∈ s.white_list, x.addr_is_empty = false → addrs_are_equal x.device_addr a = false := by
  have hzero : s.white_list_len = 0 →
      ∀ x ∈ s.white_list, x.addr_is_empty = false →
        addrs_are_equal x.device_addr a = false := by
    intro hz x hx hocc
    exact absurd (wl_len_zero_all_empty hInv hinit hz x hx) (by simp [hocc])
  rcases hG with hG | hG
  · rw [white_list_contains_addr, hinit] at hG
    simp only [Bool.not_true, Bool.false_eq_true, if_false] at hG
    rcases hz : s.white_list_len == 0 with _ | _
    · rw [hz] at hG
      simp only [Bool.false_eq_true, if_false, List.any_eq_false] at hG
      intro x hx hocc
      have := hG x hx
      simp only [Bool.and_eq_true, not_and, Bool.not_eq_true'] at this
      exact Bool.eq_false_iff.mpr (this (by simp [hocc]))
    · exact hzero (by simpa using hz)
  · rw [white_list_is_empty] at hG
    exact hzero (by simpa using hG)

/-- Occupancy count of a slot table split around one slot. -/
theorem get_white_list_len_append_cons (l0 l1 : List DeviceData) (d : DeviceData) :
    get_white_list_len (l0 ++ d :: l1) =
      get_white_list_len l0 + get_white_list_len l1 +
        (if d.addr_is_empty then 0 else 1) := by
  rw [get_white_list_len, List.countP_append, List.countP_cons]
  cases hd : d.addr_is_empty <;> simp [get_white_list_len, hd] <;> omega

/-- A gated insert preserves the registry invariant. -/
theorem push_preserves_inv (s : WLState) (u : BleUuid16) (a : BleAddr)
    (hInv : WLInv s)
    (hG : white_list_contains_addr s a = false ∨ white_list_is_empty s = true) :
    WLInv (push_to_white_list s u a).2 := by
  obtain ⟨hmap, hdist, hcnt⟩ := hInv
  rw [push_to_white_list]
  rcases hinit : s.wl_is_initialised with _ | _
  · simp only [hinit, Bool.not_false, if_true]
    exact ⟨hmap, hdist, hcnt⟩
  · simp only [hinit, Bool.not_true, Bool.false_eq_true, if_false]
    rcases hlen : (s.white_list_len == white_list_size) with _ | _
    · simp only [Bool.false_eq_true, if_false]
      rcases hscan : scan_update
          (fun d => d.addr_is_empty && uuids16_are_equal d.device_uuid u)
          (fun d => { d with device_addr := a, addr_is_empty := false })
          s.white_list with _ | l2
      · exact ⟨hmap, hdist, hcnt⟩
      · obtain ⟨l0, d, l1, hl, hl2, hPd, hl0⟩ := scan_update_eq_some hscan
        obtain ⟨hde, hdu⟩ : d.addr_is_empty = true ∧
            uuids16_are_equal d.device_uuid u = true := by simpa using hPd
        have hNo := wl_no_occupied_addr ⟨hmap, hdist, hcnt⟩ hinit hG
        refine ⟨?_, ?_, ?_⟩
        · rw [hl] at hmap
          simpa [hl2, List.map_append] using hmap
        · rw [hl] at hdist
          rw [distinct_addrs] at hdist ⊢
          rw [hl2]
          rw [List.pairwise_append] at hdist ⊢
          obtain ⟨p0, pd1, cross⟩ := hdist
          rw [List.pairwise_cons] at pd1 ⊢
          obtain ⟨pd, p1⟩ := pd1
          refine ⟨p0, ⟨?_, p1⟩, ?_⟩
          · intro y hy _ hy2
            have hmem : y ∈ s.white_list := by
              rw [hl]; exact List.mem_append_right _ (List.mem_cons_of_mem _ hy)
            have := hNo y hmem hy2
            rw [addrs_are_equal_comm] at this
            exact this
          · intro x hx y hy
            rcases List.mem_cons.mp hy with rfl | hy2
            · intro hx2 _
              exact hNo x (by rw [hl]; exact List.mem_append_left _ hx) hx2
            · exact cross x hx y (List.mem_cons_of_mem _ hy2)
        · intro _
          have hc := hcnt hinit
          rw [hl] at hc
          rw [hl2]
          rw [get_white_list_len_append_cons] at hc ⊢
          simp [hde] at hc ⊢
          omega
    · simp only [if_true]
      exact ⟨hmap, hdist, hcnt⟩

/-- Clearing the occupancy flag of the first slot matched by an
occupied-only predicate preserves the registry invariant. -/
theorem remove_scan_preserves_inv (s : WLState) (P : DeviceData → Bool)
    (hP : ∀ d, P d = true → d.addr_is_empty = false)
    (hInv : WLInv s) {l2 : List DeviceData}
    (hscan : scan_update P (fun d => { d with addr_is_empty := true })
      s.white_list = some l2) :
    WLInv { s with white_list := l2, white_list_len := s.white_list_len - 1 } := by
  obtain ⟨hmap, hdist, hcnt⟩ := hInv
  obtain ⟨l0, d, l1, hl, hl2, hPd, hl0⟩ := scan_update_eq_some hscan
  have hde : d.addr_is_empty = false := hP d hPd
  refine ⟨?_, ?_, ?_⟩
  · rw [hl] at hmap
    simpa [hl2, List.map_append] using hmap
  · rw [hl] at hdist
    rw [distinct_addrs] at hdist ⊢
    rw [hl2]
    rw [List.pairwise_append] at hdist ⊢
    obtain ⟨p0, pd1, cross⟩ := hdist
    rw [List.pairwise_cons] at pd1 ⊢
    obtain ⟨_, p1⟩ := pd1
    refine ⟨p0, ⟨?_, p1⟩, ?_⟩
    · intro y _ hfalse _
      exact Bool.noConfusion hfalse
    · intro x hx y hy
      rcases List.mem_cons.mp hy with rfl | hy2
      · intro _ hfalse
        exact Bool.noConfusion hfalse
      · exact cross x hx y (List.mem_cons_of_mem _ hy2)
  · intro hinit
    have hc := hcnt hinit
    rw [hl] at hc
    rw [hl2]
    rw [get_white_list_len_append_cons] at hc ⊢
    simp [hde] at hc ⊢
    omega

/-- Removal by address preserves the registry invariant. -/
theorem remove_addr_preserves_inv (s : WLState) (a : BleAddr) (hInv : WLInv s) :
    WLInv (remove_from_white_list_by_addr s a).2 := by
  rw [remove_from_white_list_by_addr]
  rcases hinit : s.wl_is_initialised with _ | _
  · simpa [hinit] using hInv
  · simp only [hinit, Bool.not_true, Bool.false_eq_true, if_false]
    rcases hlen : (s.white_list_len == 0) with _ | _
    · simp only [Bool.false_eq_true, if_false]
      rcases hscan : scan_update
          (fun d => !d.addr_is_empty && addrs_are_equal d.device_addr a)
          (fun d => { d with addr_is_empty := true }) s.white_list with _ | l2
      · exact hInv
      · have hres := remove_scan_preserves_inv s _
          (fun d hd => by
            have : (!d.addr_is_empty) = true ∧ addrs_are_equal d.device_addr a = true := by
              simpa using hd
            simpa using this.1) hInv hscan
        rw [hinit] at hres
        exact hres
    · simp only [if_true]
      exact hInv

/-- Removal by category preserves the registry invariant. -/
theorem remove_uuid_preserves_inv (s : WLState) (u : BleUuid16) (hInv : WLInv s) :
    WLInv (remove_from_white_list_by_uuid16 s u).2 := by
  rw [remove_from_white_list_by_uuid16]
  rcases hinit : s.wl_is_initialised with _ | _
  · simpa [hinit] using hInv
  · simp only [hinit, Bool.not_true, Bool.false_eq_true, if_false]
    rcases hlen : (s.white_list_len == 0) with _ | _
    · simp only [Bool.false_eq_true, if_false]
      rcases hscan : scan_update
          (fun d => !d.addr_is_empty && uuids16_are_equal d.device_uuid u)
          (fun d => { d with addr_is_empty := true }) s.white_list with _ | l2
      · exact hInv
      · have hres := remove_scan_preserves_inv s _
          (fun d hd => by
            have : (!d.addr_is_empty) = true ∧ uuids16_are_equal d.device_uuid u = true := by
              simpa using hd
            simpa using this.1) hInv hscan
        rw [hinit] at hres
        exact hres
    · simp only [if_true]
      exact hInv

/-- Under the invariant the slot categories are pairwise distinct for the
code's own comparator. -/
theorem wl_uuid_pairwise (s : WLState) (hInv : WLInv s) :
    s.white_list.Pairwise
      (fun d1 d2 => uuids16_are_equal d1.device_uuid d2.device_uuid = false) := by
  have hmap := hInv.1
  rcases hl : s.white_list with _ | ⟨d0, _ | ⟨d1, _ | ⟨d2, _ | ⟨d3, t⟩⟩⟩⟩ <;>
    rw [hl] at hmap <;> simp [List.map] at hmap
  obtain ⟨h0, h1, h2⟩ := hmap
  simp [List.pairwise_cons, h0, h1, h2]
  refine ⟨⟨by decide, by decide⟩, by decide⟩

/-- The freshly initialised empty white list satisfies the invariant. -/
theorem wl_empty_inv : WLInv wl_empty := by
  refine ⟨rfl, ?_, fun _ => rfl⟩
  simp [distinct_addrs, wl_empty, boot_slots, List.pairwise_cons]

/-- Claim C4: every registry operation (init, deinit, gated insert, removal
by address, removal by category) preserves the invariant that, while
initialised, the occupied-count equals the number of occupied slots, no two
occupied slots hold the same address, and the category identifiers are
unmodified (hence pairwise distinct); the queries are pure and leave the
state untouched by construction. -/
theorem registry_ops_preserve_invariant (s : WLState) (hInv : WLInv s) :
    WLInv (init_white_list s).2 ∧
    WLInv (deinit_white_list s).2 ∧
    (∀ u a, white_list_contains_addr s a = false ∨ white_list_is_empty s = true →
      WLInv (push_to_white_list s u a).2) ∧
    (∀ a, WLInv (remove_from_white_list_by_addr s a).2) ∧
    (∀ u, WLInv (remove_from_white_list_by_uuid16 s u).2) ∧
    s.white_list.Pairwise
      (fun d1 d2 => uuids16_are_equal d1.device_uuid d2.device_uuid = false) := by
  obtain ⟨hmap, hdist, hcnt⟩ := hInv
  refine ⟨?_, ?_, fun u a hG => push_preserves_inv s u a ⟨hmap, hdist, hcnt⟩ hG,
    fun a => remove_addr_preserves_inv s a ⟨hmap, hdist, hcnt⟩,
    fun u => remove_uuid_preserves_inv s u ⟨hmap, hdist, hcnt⟩,
    wl_uuid_pairwise s ⟨hmap, hdist, hcnt⟩⟩
  · rw [init_white_list]
    rcases hinit : s.wl_is_initialised with _ | _
    · simp only [Bool.false_eq_true, if_false]
      exact ⟨hmap, hdist, fun _ => rfl⟩
    · simp only [if_true]
      exact ⟨hmap, hdist, hcnt⟩
  · rw [deinit_white_list]
    rcases hinit : s.wl_is_initialised with _ | _
    · simp only [hinit, Bool.not_false, if_true]
      exact ⟨hmap, hdist, hcnt⟩
    · simp only [hinit, Bool.not_true, Bool.false_eq_true, if_false]
      exact ⟨hmap, hdist, fun h => Bool.noConfusion h⟩

/-- Witness for C4 at a concrete state: inserting into the freshly
initialised empty registry keeps the invariant. -/
theorem registry_ops_preserve_invariant_witness : WLInv (push_to_white_list wl_empty uuid_pulseox addrB).2 :=
  (registry_ops_preserve_invariant wl_empty wl_empty_inv).2.2.1 uuid_pulseox addrB (Or.inr rfl)

/-- Claim C5: insert fails leaving the registry unchanged when
uninitialised, when the occupied-count equals the capacity, or when no
empty slot carries the requested category; otherwise it succeeds by
marking the first empty slot of that category occupied with the given
address, leaving every other slot unchanged. -/
theorem push_to_white_list_spec (s : WLState) (u : BleUuid16) (a : BleAddr) (hInv : WLInv s) :
    (s.wl_is_initialised = false → push_to_white_list s u a = (.fail, s)) ∧
    (s.wl_is_initialised = true →
      get_white_list_len s.white_list = white_list_size →
      push_to_white_list s u a = (.fail, s)) ∧
    ((∀ d ∈ s.white_list, ¬(d.addr_is_empty = true ∧
        uuids16_are_equal d.device_uuid u = true)) →
      push_to_white_list s u a = (.fail, s)) ∧
    (∀ l0 d l1, s.white_list = l0 ++ d :: l1 →
      s.wl_is_initialised = true →
      get_white_list_len s.white_list ≠ white_list_size →
      d.addr_is_empty = true → uuids16_are_equal d.device_uuid u = true →
      (∀ x ∈ l0, ¬(x.addr_is_empty = true ∧ uuids16_are_equal x.device_uuid u = true)) →
      push_to_white_list s u a =
        (.ok, { s with
          white_list := l0 ++ { d with device_addr := a, addr_is_empty := false } :: l1,
          white_list_len := s.white_list_len + 1 })) := by
  refine ⟨?_, ?_, ?_, ?_⟩
  · intro h
    rw [push_to_white_list, h]
    rfl
  · intro hinit hfull
    have hl : s.white_list_len = white_list_size := (hInv.2.2 hinit).trans hfull
    rw [push_to_white_list, hinit, hl]
    rfl
  · intro hno
    have hzero : ∀ d ∈ s.white_list,
        (d.addr_is_empty && uuids16_are_equal d.device_uuid u) = false := by
      intro d hd
      rcases he : d.addr_is_empty with _ | _
      · simp [he]
      · simp only [he, Bool.true_and]
        exact Bool.eq_false_iff.mpr (fun hq => hno d hd ⟨he, hq⟩)
    rw [push_to_white_list]
    rcases hinit : s.wl_is_initialised with _ | _
    · rfl
    · simp only [Bool.not_true, Bool.false_eq_true, if_false]
      rcases hlen : (s.white_list_len == white_list_size) with _ | _
      · simp only [Bool.false_eq_true, if_false]
        rw [scan_update_eq_none.mpr hzero]
      · simp only [if_true]
  · intro l0 d l1 hl hinit hne hde hdu hfirst
    have hlen : s.white_list_len ≠ white_list_size := by
      rw [hInv.2.2 hinit]
      exact hne
    have h0 : ∀ x ∈ l0,
        (x.addr_is_empty && uuids16_are_equal x.device_uuid u) = false := by
      intro x hx
      rcases he : x.addr_is_empty with _ | _
      · simp [he]
      · simp only [he, Bool.true_and]
        exact Bool.eq_false_iff.mpr (fun hq => hfirst x hx ⟨he, hq⟩)
    have hd : (d.addr_is_empty && uuids16_are_equal d.device_uuid u) = true := by
      simp [hde, hdu]
    rw [push_to_white_list, hinit]
    simp only [Bool.not_true, Bool.false_eq_true, if_false]
    rw [if_neg (by simpa using hlen), hl, scan_update_append l0 d l1 h0 hd]

/-- Witness for C5: enrolling `addrB` under the pulse-oximeter category in
the empty registry succeeds and fills exactly that slot. -/
theorem push_to_white_list_spec_witness :
    push_to_white_list wl_empty uuid_pulseox addrB = (.ok, wl_pulseB) := by
  have h := (push_to_white_list_spec wl_empty uuid_pulseox addrB wl_empty_inv).2.2.2
    [⟨uuid_temperature, zero_addr, true⟩] ⟨uuid_pulseox, zero_addr, true⟩
    [⟨uuid_activity, zero_addr, true⟩] rfl rfl (by decide) rfl (by decide) (by decide)
  exact h

/-- Inversion of a successful insert. -/
theorem push_ok_inversion {s : WLState} {u : BleUuid16} {a : BleAddr} {w1 : WLState}
    (h : push_to_white_list s u a = (.ok, w1)) :
    s.wl_is_initialised = true ∧
    ∃ l2, scan_update (fun d => d.addr_is_empty && uuids16_are_equal d.device_uuid u)
        (fun d => { d with device_addr := a, addr_is_empty := false })
        s.white_list = some l2 ∧
      w1 = { s with white_list := l2, white_list_len := s.white_list_len + 1 } := by
  rw [push_to_white_list] at h
  rcases hinit : s.wl_is_initialised with _ | _
  · rw [hinit] at h
    simp at h
  · rw [hinit] at h
    simp only [Bool.not_true, Bool.false_eq_true, if_false] at h
    rcases hlen : (s.white_list_len == white_list_size) with _ | _
    · rw [hlen] at h
      simp only [Bool.false_eq_true, if_false] at h
      rcases hscan : scan_update
          (fun d => d.addr_is_empty && uuids16_are_equal d.device_uuid u)
          (fun d => { d with device_addr := a, addr_is_empty := false })
          s.white_list with _ | l2
      · rw [hscan] at h
        simp at h
      · rw [hscan] at h
        simp only [Prod.mk.injEq] at h
        exact ⟨rfl, l2, rfl, h.2.symm⟩
    · rw [hlen] at h
      simp at h

/-- Claim C6: a connection-result event with failing status removes the
peer address from the registry and performs nothing else; removing the
address just inserted by a gated registration insert restores the
pre-insert occupancy flags, length and initialisation flag. -/
theorem connect_fail_rollback_spec :
    (∀ (status : ℤ) (peer : BleAddr) (s : GatewayState), status ≠ 0 →
      ble_gap_event_connect status peer s =
        ({ s with wl := (remove_from_white_list_by_addr s.wl peer).2 }, [])) ∧
    (∀ (w : WLState) (u : BleUuid16) (peer : BleAddr) (w1 : WLState),
      push_to_white_list w u peer = (.ok, w1) →
      (∀ d ∈ w.white_list, d.addr_is_empty = false →
        addrs_are_equal d.device_addr peer = false) →
      (remove_from_white_list_by_addr w1 peer).1 = .ok ∧
      (remove_from_white_list_by_addr w1 peer).2.white_list.map
          (fun d => d.addr_is_empty) =
        w.white_list.map (fun d => d.addr_is_empty) ∧
      (remove_from_white_list_by_addr w1 peer).2.white_list_len = w.white_list_len ∧
      (remove_from_white_list_by_addr w1 peer).2.wl_is_initialised =
        w.wl_is_initialised) := by
  constructor
  · intro status peer s h
    rw [ble_gap_event_connect, if_neg (by simpa using h)]
  · intro w u peer w1 hpush hno
    obtain ⟨hinit, l2, hscan, hw1⟩ := push_ok_inversion hpush
    obtain ⟨l0, d, l1, hl, hl2, hPd, hl0⟩ := scan_update_eq_some hscan
    obtain ⟨hde, hdu⟩ : d.addr_is_empty = true ∧
        uuids16_are_equal d.device_uuid u = true := by simpa using hPd
    have h0 : ∀ x ∈ l0,
        (!x.addr_is_empty && addrs_are_equal x.device_addr peer) = false := by
      intro x hx
      have hxm : x ∈ w.white_list := by
        rw [hl]
        exact List.mem_append_left _ hx
      rcases he : x.addr_is_empty with _ | _
      · simp only [he, Bool.not_false, Bool.true_and]
        exact hno x hxm he
      · simp [he]
    have hd : (!({ d with device_addr := peer, addr_is_empty := false} :
        DeviceData).addr_is_empty &&
        addrs_are_equal ({ d with device_addr := peer, addr_is_empty := false} :
          DeviceData).device_addr peer) = true := by
      simp [addrs_are_equal_self]
    subst hw1
    rw [remove_from_white_list_by_addr]
    simp only [hinit, Bool.not_true, Bool.false_eq_true, if_false]
    rw [if_neg (by simp), hl2, scan_update_append l0 _ l1 h0 hd]
    refine ⟨rfl, ?_, by simp, by simp [hinit]⟩
    simp only [List.map_append, List.map_cons, hl, hde]

/-- When a category is interesting, the subsequent insert succeeds. -/
theorem interesting_push_ok {w : WLState} {u : BleUuid16}
    (h : uuid_is_interesting w u = true) (a : BleAddr) :
    (push_to_white_list w u a).1 = .ok := by
  rw [uuid_is_interesting] at h
  rcases hinit : w.wl_is_initialised with _ | _
  · rw [hinit] at h
    simp at h
  · rw [hinit] at h
    simp only [Bool.not_true, Bool.false_eq_true, if_false] at h
    rcases hlen : (w.white_list_len == white_list_size) with _ | _
    · rw [hlen] at h
      simp only [Bool.false_eq_true, if_false] at h
      rw [push_to_white_list, hinit]
      simp only [Bool.not_true, Bool.false_eq_true, if_false]
      rw [hlen]
      simp only [Bool.false_eq_true, if_false]
      rcases hscan : scan_update
          (fun d => d.addr_is_empty && uuids16_are_equal d.device_uuid u)
          (fun d => { d with device_addr := a, addr_is_empty := false })
          w.white_list with _ | l2
      · exfalso
        obtain ⟨d, hd, hPd⟩ := List.any_eq_true.mp h
        rw [scan_update_eq_none.mp hscan d hd] at hPd
        exact Bool.noConfusion hPd
      · rfl
    · rw [hlen] at h
      simp at h

/-- Claim C3: in registering mode an advertisement is accepted exactly when
the RSSI is at or above the floor, some advertised category matches an
unoccupied slot, the address is unregistered or the registry empty, and the
packet opens with the enroll-offer header; on acceptance discovery is
cancelled, the registry insert is performed (and succeeds), and only then
is the connection attempt issued, in that order. -/
theorem connect_if_interesting_accept_spec (fields : ble_hs_adv_fields) (dd : ble_gap_disc_desc) (s : GatewayState) :
    ((connect_if_interesting fields dd s).2 ≠ [] ↔
      (RSSI_ACCEPTABLE_LVL ≤ dd.rssi ∧
       (∃ u ∈ fields.uuids16, uuid_is_interesting s.wl u = true) ∧
       (white_list_contains_addr s.wl dd.addr = false ∨
         white_list_is_empty s.wl = true) ∧
       ∃ body, open_packet fields.mfg_data fields.mfg_data_len =
         some (REG_HEADER, body))) ∧
    (∀ u, fields.uuids16.find? (fun v => uuid_is_interesting s.wl v) = some u →
      RSSI_ACCEPTABLE_LVL ≤ dd.rssi →
      (white_list_contains_addr s.wl dd.addr = false ∨
        white_list_is_empty s.wl = true) →
      ∀ body, open_packet fields.mfg_data fields.mfg_data_len =
        some (REG_HEADER, body) →
      connect_if_interesting fields dd s =
        ({ s with wl := (push_to_white_list s.wl u dd.addr).2 },
          [.cancelDiscovery, .wlInsert u dd.addr, .connectTo dd.addr]) ∧
      (push_to_white_list s.wl u dd.addr).1 = .ok) := by
  constructor
  · by_cases hrssi : dd.rssi < RSSI_ACCEPTABLE_LVL
    · have heq : connect_if_interesting fields dd s = (s, []) := by
        rw [connect_if_interesting, if_pos hrssi]
      rw [heq]
      constructor
      · intro h
        exact absurd rfl h
      · rintro ⟨h1, -, -, -⟩
        exact absurd hrssi (not_lt.mpr h1)
    · rcases hfind : fields.uuids16.find? (fun v => uuid_is_interesting s.wl v)
        with _ | u
      · have heq : connect_if_interesting fields dd s = (s, []) := by
          rw [connect_if_interesting]
          simp only [hrssi, if_false, hfind]
        rw [heq]
        constructor
        · intro h
          exact absurd rfl h
        · rintro ⟨-, ⟨u, hu, hint⟩, -, -⟩
          exact absurd hint (List.find?_eq_none.mp hfind u hu)
      · have hu_int : uuid_is_interesting s.wl u = true := List.find?_some hfind
        have hu_mem : u ∈ fields.uuids16 := List.mem_of_find?_eq_some hfind
        rcases hgate : (!white_list_contains_addr s.wl dd.addr ||
            white_list_is_empty s.wl) with _ | _
        · have heq : connect_if_interesting fields dd s = (s, []) := by
            rw [connect_if_interesting]
            simp only [hrssi, if_false, hfind, hgate, Bool.false_eq_true]
          rw [heq]
          constructor
          · intro h
            exact absurd rfl h
          · rintro ⟨-, -, hg, -⟩
            rcases hg with hg | hg
            · rw [hg] at hgate
              simp at hgate
            · rw [hg] at hgate
              simp at hgate
        · have hgate2 : white_list_contains_addr s.wl dd.addr = false ∨
              white_list_is_empty s.wl = true := by
            rcases hc : white_list_contains_addr s.wl dd.addr with _ | _
            · exact Or.inl rfl
            · rcases he : white_list_is_empty s.wl with _ | _
              · rw [hc, he] at hgate
                exact Bool.noConfusion hgate
              · exact Or.inr rfl
          rcases hopen : open_packet fields.mfg_data fields.mfg_data_len
            with _ | ⟨header, body⟩
          · have heq : connect_if_interesting fields dd s = (s, []) := by
              rw [connect_if_interesting]
              simp only [hrssi, if_false, hfind, hgate, if_true, hopen]
            rw [heq]
            constructor
            · intro h
              exact absurd rfl h
            · rintro ⟨-, -, -, body, hb⟩
              exact Option.noConfusion hb
          · rcases hhdr : (header == REG_HEADER) with _ | _
            · have heq : connect_if_interesting fields dd s = (s, []) := by
                rw [connect_if_interesting]
                simp only [hrssi, if_false, hfind, hgate, if_true, hopen, hhdr,
                  Bool.false_eq_true]
              rw [heq]
              constructor
              · intro h
                exact absurd rfl h
              · rintro ⟨-, -, -, body2, hb⟩
                injection hb with hb2
                injection hb2 with hb3 hb4
                rw [hb3] at hhdr
                simp at hhdr
            · have hh : header = REG_HEADER := by simpa using hhdr
              have heq : connect_if_interesting fields dd s =
                  ({ s with wl := (push_to_white_list s.wl u dd.addr).2 },
                    [.cancelDiscovery, .wlInsert u dd.addr, .connectTo dd.addr]) := by
                rw [connect_if_interesting]
                simp only [hrssi, if_false, hfind, hgate, if_true, hopen, hhdr]
              rw [heq]
              constructor
              · intro _
                exact ⟨not_lt.mp hrssi, ⟨u, hu_mem, hu_int⟩, hgate2, body,
                  by rw [hh]⟩
              · intro _
                simp
  · intro u hfind hrssi hgate body hopen
    have hu_int : uuid_is_interesting s.wl u = true := List.find?_some hfind
    have hgateb : (!white_list_contains_addr s.wl dd.addr ||
        white_list_is_empty s.wl) = true := by
      rcases hgate with hg | hg <;> simp [hg]
    have h1 : ¬(dd.rssi < RSSI_ACCEPTABLE_LVL) := not_lt.mpr hrssi
    refine ⟨?_, interesting_push_ok hu_int dd.addr⟩
    rw [connect_if_interesting]
    simp only [h1, if_false, hfind, hgateb, if_true, hopen, beq_self_eq_true]

/-- Witness for C3: a concrete enroll-offer advertisement from `addrB` is
accepted in registering mode over the empty registry. -/
theorem connect_if_interesting_accept_spec_witness :
    connect_if_interesting ⟨[uuid_pulseox], [0, 1], 2⟩ ⟨addrB, -30⟩ gw_reg_empty =
      ({ gw_reg_empty with wl := (push_to_white_list wl_empty uuid_pulseox addrB).2 },
        [.cancelDiscovery, .wlInsert uuid_pulseox addrB, .connectTo addrB]) ∧
    (push_to_white_list wl_empty uuid_pulseox addrB).1 = .ok :=
  (connect_if_interesting_accept_spec ⟨[uuid_pulseox], [0, 1], 2⟩ ⟨addrB, -30⟩ gw_reg_empty).2 uuid_pulseox
    (by decide) (by decide) (Or.inr rfl) [] (by decide)

/-- Witness for C6: a failed connection event removes the peer, and
removing `addrB` right after its insert restores the empty occupancy. -/
theorem connect_fail_rollback_spec_witness :
    ble_gap_event_connect 1 addrB gw_reg_empty =
      ({ gw_reg_empty with
          wl := (remove_from_white_list_by_addr wl_empty addrB).2 }, []) ∧
    (remove_from_white_list_by_addr wl_pulseB addrB).1 = .ok :=
  ⟨connect_fail_rollback_spec.1 1 addrB gw_reg_empty (by decide),
   (connect_fail_rollback_spec.2 wl_empty uuid_pulseox addrB wl_pulseB (by decide) (by decide)).1⟩

/-- Claim C8: a long press in idle mode with an empty registry is a
complete no-op, and with a non-empty registry it enters deletion mode and
starts open-ended discovery restricted to the exported address allow-list. -/
theorem long_press_idle_spec (s : GatewayState) :
    (s.g_device_mode = .UNSPECIFIED_MODE → white_list_is_empty s.wl = true →
      on_long_button_press s = (s, [])) ∧
    (s.g_device_mode = .UNSPECIFIED_MODE → white_list_is_empty s.wl = false →
      on_long_button_press s =
        ({ s with g_device_mode := .DELETION_MODE },
          [.ledOn, .setAllowList ((get_addr_white_list s.wl).getD []),
            .startDiscovery 1 BLE_HS_FOREVER])) := by
  constructor
  · intro hm he
    rw [on_long_button_press,
      if_neg (by rintro ⟨-, -, hx⟩; rw [he] at hx; exact Bool.noConfusion hx),
      if_neg (by rw [hm]; intro hx; exact g_device_mode_t.noConfusion hx)]
  · intro hm he
    rw [on_long_button_press,
      if_pos ⟨by rw [hm]; intro hx; exact g_device_mode_t.noConfusion hx,
        by rw [hm]; intro hx; exact g_device_mode_t.noConfusion hx, he⟩]

/-- Witness for C8 at the idle state with the empty registry. -/
theorem long_press_idle_spec_witness : on_long_button_press gw_idle_empty = (gw_idle_empty, []) :=
  (long_press_idle_spec gw_idle_empty).1 rfl rfl

/-- Claim C10: a medium press in deletion mode and a long press in
registration mode are complete no-ops: state identical, no driver calls. -/
theorem press_noop_spec (s : GatewayState) :
    (s.g_device_mode = .DELETION_MODE → on_medium_button_press s = (s, [])) ∧
    (s.g_device_mode = .REGISTRATION_MODE → on_long_button_press s = (s, [])) := by
  constructor
  · intro hm
    rw [on_medium_button_press,
      if_neg (by rintro ⟨-, hx⟩; exact hx hm),
      if_neg (by rw [hm]; intro hx; exact g_device_mode_t.noConfusion hx)]
  · intro hm
    rw [on_long_button_press,
      if_neg (by rintro ⟨-, hx, -⟩; exact hx hm),
      if_neg (by rw [hm]; intro hx; exact g_device_mode_t.noConfusion hx)]

/-- Witness for C10 at concrete states. -/
theorem press_noop_spec_witness :
    on_medium_button_press gw_del_empty = (gw_del_empty, []) ∧
    on_long_button_press gw_reg_empty = (gw_reg_empty, []) :=
  ⟨(press_noop_spec gw_del_empty).1 rfl, (press_noop_spec gw_reg_empty).2 rfl⟩

/-- Claim C9: opening a packet fails exactly when the declared length is
below the two-byte header or exceeds the buffer, and otherwise yields the
16-bit header from the first two bytes and the following
declared-length-minus-two bytes as body, with no filtering on the header
value. -/
theorem open_packet_spec (raw : List ℕ) (declared_len : ℕ) :
    (open_packet raw declared_len = none ↔
      declared_len < HEADER_SIZE ∨ raw.length < declared_len) ∧
    (∀ h b, open_packet raw declared_len = some (h, b) →
      b = (raw.drop HEADER_SIZE).take (declared_len - HEADER_SIZE) ∧
      b.length = declared_len - HEADER_SIZE ∧
      ∃ b0 b1 rest, raw = b0 :: b1 :: rest ∧ h = 256 * b0 + b1) := by
  by_cases h1 : declared_len < HEADER_SIZE
  · rw [open_packet.eq_def, if_pos h1]
    exact ⟨by simp [h1], fun h b hb => Option.noConfusion hb⟩
  · by_cases h2 : raw.length < declared_len
    · rw [open_packet.eq_def, if_neg h1, if_pos h2]
      exact ⟨by simp [h2], fun h b hb => Option.noConfusion hb⟩
    · rcases raw with _ | ⟨b0, _ | ⟨b1, rest⟩⟩
      · exfalso
        rw [HEADER_SIZE] at h1
        simp only [List.length_nil] at h2
        omega
      · exfalso
        rw [HEADER_SIZE] at h1
        simp only [List.length_cons, List.length_nil] at h2
        omega
      · rw [open_packet.eq_def, if_neg h1, if_neg h2]
        constructor
        · constructor
          · intro h
            exact Option.noConfusion h
          · rintro (h | h)
            · exact absurd h h1
            · exact absurd h h2
        · intro h b hb
          injection hb with hb1
          injection hb1 with hh hbody
          refine ⟨hbody.symm, ?_, b0, b1, rest, rfl, hh.symm⟩
          rw [← hbody, List.length_take]
          rw [HEADER_SIZE] at h1 ⊢
          simp only [List.length_cons] at h2
          omega

/-- Witness for C9 on a concrete three-byte buffer. -/
theorem open_packet_spec_witness :
    ([7] : List ℕ) = (([0, 1, 7] : List ℕ).drop HEADER_SIZE).take (3 - HEADER_SIZE) ∧
    ([7] : List ℕ).length = 3 - HEADER_SIZE ∧
    ∃ b0 b1 rest, ([0, 1, 7] : List ℕ) = b0 :: b1 :: rest ∧ 1 = 256 * b0 + b1 :=
  (open_packet_spec [0, 1, 7] 3).2 1 [7] rfl

end BWSN
